import Mathlib

/-!
Verification of the fuel-prices ingestion-and-query core (src/api/server.py,
src/api/models.py, src/api/constants.py) against its specification.

Numbers that the Python code handles as floats/Decimals are modelled as
rationals (ℚ); SQLAlchemy rows are records in lists; a caught exception is a
no-op branch and an uncaught one an explicit error outcome.  The haversine
library call is kept abstract as a function parameter.  Timestamps are
abstract instants (Nat); their strftime rendering is abstracted, since no
claim depends on the format string.
-/

namespace FuelApi

/-- A Python value stored in a JSON-style dict: a number or a string. -/
inductive Val where
  | num (q : ℚ)
  | str (s : String)
deriving DecidableEq

/-- constants.NO_DATA_STRING -/
def noDataString : String := "No data available."

/-- Python round(x, 2).  (Python rounds ties to even; ties never occur in any
claim-relevant value, so round-half-up on ℚ agrees everywhere it is used.) -/
def round2 (q : ℚ) : ℚ := ((round (q * 100) : ℤ) : ℚ) / 100

/-- A row of models.FuelStations: surrogate id, unique natural key siteid,
descriptive fields and coordinates. -/
structure StationRow where
  id : Nat
  siteid : String
  name : String
  brand : String
  postcode : String
  latitude : ℚ
  longitude : ℚ
deriving DecidableEq

/-- A row of models.FuelPrices.  The station reference column (named siteid in
the model, holding FuelStations.id values) is nullable: it stays NULL when id
resolution failed.  Price columns are always written by the ingester (value or
-1), never NULL. -/
structure PriceRow where
  id : Nat
  siteid : Option Nat
  price_e5 : ℚ
  price_e10 : ℚ
  price_b7 : ℚ
  price_sdv : ℚ
  timestamp : Nat
deriving DecidableEq

/-- The relational store: the two tables plus autoincrement counters. -/
structure DB where
  stations : List StationRow
  prices : List PriceRow
  nextStationId : Nat
  nextPriceId : Nat
deriving DecidableEq

def emptyDB : DB := ⟨[], [], 1, 1⟩

/-- One per-station record of an upstream feed (a member of data["stations"]):
natural key, descriptive fields, coordinates and the sparse price map keyed by
uppercase fuel-type label. -/
structure SiteRecord where
  site_id : String
  address : String
  brand : String
  postcode : String
  latitude : ℚ
  longitude : ℚ
  prices : List (String × ℚ)
deriving DecidableEq

/-- One upstream feed response: HTTP status, whether the body parses (valid
JSON with a strptime-parseable last_updated), the parsed feed-level
last_updated instant and the station records. -/
structure Feed where
  status : Nat
  parses : Bool
  last_updated : Nat
  stations : List SiteRecord
deriving DecidableEq

/-- The station insert-then-fallback-lookup of build_database
(server.py:104-133).  The INSERT..RETURNING fails exactly on the unique
constraint on siteid (SQLAlchemyError, caught); the fallback query(...).one()
by siteid then resolves the existing surrogate id.  If both fail, id stays
None. -/
def resolveStation (db : DB) (site : SiteRecord) : DB × Option Nat :=
  if db.stations.any (fun r => r.siteid == site.site_id) then
    match db.stations.find? (fun r => r.siteid == site.site_id) with
    | some r => (db, some r.id)
    | none => (db, none)
  else
    ({ db with
        stations := db.stations ++
          [⟨db.nextStationId, site.site_id, site.address, site.brand,
            site.postcode, site.latitude, site.longitude⟩],
        nextStationId := db.nextStationId + 1 },
      some db.nextStationId)

/-- Whether the record's price map has any of the four fuel keys. -/
def hasFuelKey (pm : List (String × ℚ)) : Bool :=
  pm.any (fun kv => kv.1 == "E5" || kv.1 == "E10" || kv.1 == "B7" || kv.1 == "SDV")

/-- The price INSERT of build_database (server.py:134-148).  The VALUES
expressions read the module-global name `prices` (the /prices endpoint
function) instead of the local `fuel_prices`, so evaluating any present fuel
key raises TypeError, swallowed by the bare except: no row is inserted
whenever a fuel key is present.  When all four keys are absent a row of
sentinels is inserted; a (siteid, timestamp) uniqueness violation is caught
and is a no-op (SQL NULL station references never conflict). -/
def insertPrice (db : DB) (sid : Option Nat) (ts : Nat) (pm : List (String × ℚ)) : DB :=
  if hasFuelKey pm then db
  else if sid.isSome && db.prices.any (fun p => p.siteid == sid && p.timestamp == ts) then db
  else
    { db with
        prices := db.prices ++ [⟨db.nextPriceId, sid, -1, -1, -1, -1, ts⟩],
        nextPriceId := db.nextPriceId + 1 }

/-- The per-site body of the ingestion loop. -/
def ingestSite (ts : Nat) (db : DB) (site : SiteRecord) : DB :=
  let rs := resolveStation db site
  insertPrice rs.1 rs.2 ts site.prices

/-- One feed of build_database: a non-200 status is skipped; a 200 body that
fails to parse raises outside any try block and aborts the run; a parsed feed
has each of its station records ingested in order. -/
def processFeed (db : DB) (f : Feed) : Except Unit DB :=
  if f.status == 200 then
    if f.parses then .ok (f.stations.foldl (ingestSite f.last_updated) db)
    else .error ()
  else .ok db

/-- build_database (server.py:74-150): the feeds are processed in order inside
one session; the single commit happens only after every feed was processed. -/
def build_database (db : DB) (feeds : List Feed) : Except Unit DB :=
  feeds.foldlM processFeed db

/-- The store a later reader observes after one ingestion run: the processed
state when the run reached its commit, the unchanged store when an uncaught
exception aborted the run before the commit. -/
def runDB (db : DB) (feeds : List Feed) : DB :=
  match build_database db feeds with
  | .ok d => d
  | .error _ => db

/-- A sequence of ingestion runs. -/
def buildMany (db : DB) (runs : List (List Feed)) : DB :=
  runs.foldl runDB db

/-- format_price (server.py:152-159).  The column is never NULL (the ingester
always writes a value or -1), so only the -1 test matters. -/
def format_price (price : ℚ) : Val :=
  if price ≠ -1 then .num (round2 price) else .str noDataString

/-- strftime(TIMESTAMP_FORMAT) rendering, abstracted. -/
def strfTime (ts : Nat) : String := toString ts

/-- order_by(timestamp.desc()).first(): a row of maximal timestamp (the first
such row; for one station the timestamp is unique by the constraint). -/
def latestRow (rows : List PriceRow) : Option PriceRow :=
  rows.foldl
    (fun acc r =>
      match acc with
      | none => some r
      | some a => if a.timestamp < r.timestamp then some r else acc)
    none

/-- The FuelPrices rows of one station (filter siteid == id). -/
def rowsFor (db : DB) (id : Nat) : List PriceRow :=
  db.prices.filter (fun p => p.siteid == some id)

/-- get_price (server.py:161-181): latest snapshot of the station formatted
into a dict, the empty dict when the station has no snapshot. -/
def get_price (db : DB) (id : Nat) : List (String × Val) :=
  match latestRow (rowsFor db id) with
  | none => []
  | some r =>
      [("e5", format_price r.price_e5), ("e10", format_price r.price_e10),
       ("b7", format_price r.price_b7), ("sdv", format_price r.price_sdv),
       ("updated", .str (strfTime r.timestamp))]

/-- The cost expression of calculate_travel_cost (server.py:70-71). -/
def travelCostOf (distance mpg p : ℚ) : ℚ :=
  round2 ((p * distance * (4546/1000)) / (mpg * (160934/100000) * 100))

/-- calculate_travel_cost (server.py:64-72): every non-string price yields a
rounded cost, string placeholders are skipped; mpg defaults to 30. -/
def calculate_travel_cost (prices : List (String × Val)) (distance : ℚ)
    (mpg : ℚ := 30) : List (String × ℚ) :=
  prices.foldl
    (fun acc kv =>
      match kv.2 with
      | .num p => acc ++ [(kv.1, travelCostOf distance mpg p)]
      | .str _ => acc)
    []

/-- One element of the /stations/nearest response array. -/
structure Entry where
  id : Nat
  siteid : String
  name : String
  brand : String
  postcode : String
  latlon : ℚ × ℚ
  distance_km : ℚ
  prices : List (String × Val)
  travel_cost_estimate : List (String × ℚ)
deriving DecidableEq

/-- Python dict subscript m[k] as a partial lookup. -/
def lookupVal (m : List (String × Val)) (k : String) : Option Val :=
  (m.find? (fun kv => kv.1 == k)).map (fun kv => kv.2)

/-- The haversine library call, abstract: great-circle distance in km between
two (lat, lon) pairs. -/
abbrev Hav := ℚ × ℚ → ℚ × ℚ → ℚ

/-- The dict appended per in-radius station in stations_nearest
(server.py:237-247): the unrounded distance feeds the radius test and the
travel cost, the rounded one the distance_km field. -/
def mkEntry (hav : Hav) (db : DB) (lat lon : ℚ) (r : StationRow) : Entry :=
  let dist := hav (r.latitude, r.longitude) (lat, lon)
  { id := r.id, siteid := r.siteid, name := r.name, brand := r.brand,
    postcode := r.postcode, latlon := (r.latitude, r.longitude),
    distance_km := round2 dist, prices := get_price db r.id,
    travel_cost_estimate := calculate_travel_cost (get_price db r.id) dist }

/-- The radius test of the loop: `if dist > distance: continue`. -/
def inRadius (hav : Hav) (lat lon : ℚ) (distance : ℤ) (r : StationRow) : Bool :=
  !(hav (r.latitude, r.longitude) (lat, lon) > (distance : ℚ))

/-- Outcomes of /stations/nearest: 400 with the invalid fueltype echoed
(FUELTYPE_ERROR_STRING), 404 on an empty station table, 200 with the array,
or an uncaught KeyError escaping as a server error. -/
inductive NearestResult where
  | badRequest (fueltype : String)
  | noData
  | ok (body : List Entry)
  | exception
deriving DecidableEq

def validFueltypes : List String := ["e5", "e10", "b7", "sdv"]

/-- The sort key x["prices"][fueltype] of the filtered branch; after the
filter every looked-up value is numeric, so the default is unreachable. -/
def priceKey (ft : String) (e : Entry) : ℚ :=
  match lookupVal e.prices ft with
  | some (.num q) => q
  | _ => 0

/-- The in-radius entries in station-table order (the loop of
server.py:230-247 appends exactly these). -/
def nearList (hav : Hav) (db : DB) (lat lon : ℚ) (distance : ℤ) : List Entry :=
  (db.stations.filter (inRadius hav lat lon distance)).map (mkEntry hav db lat lon)

/-- stations_nearest (server.py:210-257).  Python sorted is a stable sort and
is modelled by insertion sort (also stable).  In the fueltype branch the list
comprehension subscripts i["prices"][fueltype]; a station whose prices dict is
empty (no snapshot) raises KeyError there, uncaught. -/
def stations_nearest (hav : Hav) (db : DB) (lat lon : ℚ) (distance : ℤ)
    (fueltype : Option String) : NearestResult :=
  match fueltype with
  | some ft =>
      if ft ∉ validFueltypes then .badRequest ft
      else if db.stations.isEmpty then .noData
      else
        let base := nearList hav db lat lon distance
        if base.any (fun e => (lookupVal e.prices ft).isNone) then .exception
        else
          .ok (List.insertionSort (fun a b => priceKey ft a ≤ priceKey ft b)
            (base.filter (fun e => lookupVal e.prices ft != some (.str noDataString))))
  | none =>
      if db.stations.isEmpty then .noData
      else
        .ok (List.insertionSort (fun a b => a.distance_km ≤ b.distance_km)
          (nearList hav db lat lon distance))

/-- The /station/{id} response object. -/
structure StationOut where
  id : Nat
  siteid : String
  name : String
  brand : String
  postcode : String
  latlon : ℚ × ℚ
deriving DecidableEq

/-- Outcomes of /station/{id}: 200, the 404 "No data." branch, or an uncaught
exception escaping as a server error. -/
inductive StationResult where
  | ok (body : StationOut)
  | noData
  | exception
deriving DecidableEq

/-- station_id (server.py:259-284).  query(...).filter(id == id).one() raises
NoResultFound on zero rows and MultipleResultsFound on several, uncaught; only
an exactly-one match reaches the truthiness test, whose ORM row is always
truthy, so the else-404 branch is dead. -/
def station_id (db : DB) (id : Nat) : StationResult :=
  match db.stations.filter (fun r => r.id == id) with
  | [r] => .ok ⟨r.id, r.siteid, r.name, r.brand, r.postcode, (r.latitude, r.longitude)⟩
  | _ => .exception

/-- statistics.mean -/
def mean (l : List ℚ) : ℚ := l.sum / l.length

/-- The comprehension filter float(v) > 0 of price_id (server.py:385-388). -/
def positives (l : List ℚ) : List ℚ := l.filter (fun q => 0 < q)

/-- The empty-guard of price_id (server.py:390-393): a fuel type with no
qualifying value averages over the single sentinel instead. -/
def orSentinel (l : List ℚ) : List ℚ := if l.isEmpty then [-1] else l

/-- The /price/{id} response object. -/
structure PriceIdOut where
  id : Nat
  siteid : Option Nat
  price_e5 : Val
  price_e10 : Val
  price_b7 : Val
  price_sdv : Val
  price_e5_average : Val
  price_e10_average : Val
  price_b7_average : Val
  price_sdv_average : Val
  timestamp : String
deriving DecidableEq

/-- price_id (server.py:362-411), the query part (the endpoint first triggers
build_database; the claims here concern the projection over the store it then
reads).  none is the 404 "No data." branch. -/
def price_id (db : DB) (id : Nat) : Option PriceIdOut :=
  let all := rowsFor db id
  let e5v := orSentinel (positives (all.map (fun r => r.price_e5)))
  let e10v := orSentinel (positives (all.map (fun r => r.price_e10)))
  let b7v := orSentinel (positives (all.map (fun r => r.price_b7)))
  let sdvv := orSentinel (positives (all.map (fun r => r.price_sdv)))
  match latestRow all with
  | none => none
  | some r =>
      some { id := r.id, siteid := r.siteid,
             price_e5 := format_price r.price_e5,
             price_e10 := format_price r.price_e10,
             price_b7 := format_price r.price_b7,
             price_sdv := format_price r.price_sdv,
             price_e5_average := format_price (mean e5v),
             price_e10_average := format_price (mean e10v),
             price_b7_average := format_price (mean b7v),
             price_sdv_average := format_price (mean sdvv),
             timestamp := strfTime r.timestamp }

/-- The /prices/average response object. -/
structure AvgOut where
  price_e5 : ℚ
  price_e10 : ℚ
  price_b7 : ℚ
  price_sdv : ℚ
deriving DecidableEq

/-- Outcomes of /prices/average: 200, the 404 branch (all four rounded
averages are falsy zeros), or the TypeError of round(None, 2) when a column
has no positive row (SQL AVG over no rows is NULL), uncaught. -/
inductive AvgResult where
  | ok (body : AvgOut)
  | noData
  | exception
deriving DecidableEq

/-- func.avg over the rows where the column is positive, rounded: NULL (none)
when no row qualifies. -/
def avgPos (l : List ℚ) : Option ℚ :=
  match positives l with
  | [] => none
  | xs => some (round2 (mean xs))

/-- prices_average (server.py:316-360), the query part (the endpoint first
triggers build_database).  Any NULL average crashes in round(None, 2); the
final truthiness test sends an all-zero quadruple to the 404 branch. -/
def prices_average (db : DB) : AvgResult :=
  match avgPos (db.prices.map (fun r => r.price_e5)),
        avgPos (db.prices.map (fun r => r.price_e10)),
        avgPos (db.prices.map (fun r => r.price_b7)),
        avgPos (db.prices.map (fun r => r.price_sdv)) with
  | some a, some b, some c, some d =>
      if a ≠ 0 ∨ b ≠ 0 ∨ c ≠ 0 ∨ d ≠ 0 then .ok ⟨a, b, c, d⟩ else .noData
  | _, _, _, _ => .exception

deriving instance DecidableEq for Except

/-! ## Concrete stores and feeds used by witnesses and counterexamples -/

/-- A feed whose first record carries an E5 price and whose second carries an
empty price map. -/
def c1feed : Feed :=
  ⟨200, true, 10,
   [⟨"s1", "addr1", "brand1", "pc1", 0, 0, [("E5", 3/2)]⟩,
    ⟨"s2", "addr2", "brand2", "pc2", 0, 0, []⟩]⟩

/-- A healthy feed with one station record (empty price map). -/
def c4good : Feed := ⟨200, true, 20, [⟨"g1", "a", "b", "p", 0, 0, []⟩]⟩

/-- A 200 response whose body does not parse. -/
def c4bad : Feed := ⟨200, false, 0, []⟩

/-- A store holding one station and no price snapshots. -/
def c5db : DB := ⟨[⟨1, "s1", "a", "b", "p", 0, 0⟩], [], 2, 2⟩

/-- A distance function returning 0, as haversine does on coincident
coordinates (the query point below sits on the station). -/
def hav0 : Hav := fun _ _ => 0

/-- A store holding one station and no price snapshots (C10 witness). -/
def c10db : DB := ⟨[⟨7, "t1", "a", "b", "p", 0, 0⟩], [], 8, 1⟩

/-! ## C1 -/

/-- C1: refuted by the code — for a record whose price map does hold a fuel
key, ingestion inserts no PriceSnapshot row at all: the VALUES expressions
subscript the module-global `prices` (an endpoint function) instead of the
local `fuel_prices`, raising TypeError, which the bare except swallows.  Here
the run succeeds, both stations are inserted, yet the only snapshot row is the
all-sentinel one of the record with no fuel keys; the claim requires a row
with price_e5 = 1.5 for station 1.  The sentinel row is rendered as the
no-data marker, never zero. -/
theorem c1_present_fuel_key_inserts_no_row :
    build_database emptyDB [c1feed] =
      .ok ⟨[⟨1, "s1", "addr1", "brand1", "pc1", 0, 0⟩,
            ⟨2, "s2", "addr2", "brand2", "pc2", 0, 0⟩],
           [⟨1, some 2, -1, -1, -1, -1, 10⟩], 3, 2⟩ ∧
    (runDB emptyDB [c1feed]).prices.filter (fun p => p.siteid == some 1) = [] ∧
    format_price (-1) = .str noDataString := by
  refine ⟨by decide, by decide, ?_⟩
  simp [format_price]

/-! ## C4 -/

/-- C4: refuted by the code — a 200 response with a malformed body raises
outside every try block (res.json()/strptime), aborting the whole run before
its commit: the healthy feed processed earlier in the same run loses its rows,
although ingesting the healthy feed alone does change the store. -/
theorem c4_malformed_body_aborts_run :
    build_database emptyDB [c4good, c4bad] = .error () ∧
    runDB emptyDB [c4good, c4bad] = emptyDB ∧
    runDB emptyDB [c4good] ≠ emptyDB := by
  refine ⟨by decide, by decide, by decide⟩

/-- C4 (amended): only a non-success HTTP status is a per-feed failure — such
a feed is skipped and ingestion continues exactly as if it were absent; a 200
response with a malformed (unparseable) body instead raises an uncaught
exception that aborts the run (and thereby the commit of every feed of that
run). -/
theorem c4_amended_nonsuccess_isolated (db : DB) (f : Feed) (feeds : List Feed) :
    (f.status ≠ 200 → build_database db (f :: feeds) = build_database db feeds) ∧
    (f.status = 200 → f.parses = false → build_database db (f :: feeds) = .error ()) := by
  constructor
  · intro h
    have hst : (f.status == 200) = false := by simpa using h
    simp only [build_database, List.foldlM_cons, processFeed, hst]
    rfl
  · intro h1 h2
    simp only [build_database, List.foldlM_cons, processFeed, h1, h2]
    rfl

/-- Witness for the amended C4 at concrete feeds. -/
theorem c4_amended_witness :
    build_database emptyDB [(⟨404, true, 0, []⟩ : Feed)] = build_database emptyDB [] ∧
    build_database emptyDB [c4bad] = .error () :=
  ⟨(c4_amended_nonsuccess_isolated emptyDB ⟨404, true, 0, []⟩ []).1 (by decide),
   (c4_amended_nonsuccess_isolated emptyDB c4bad []).2 rfl rfl⟩

/-! ## C7 -/

/-- C7: the claim is right and the code wrong — on a store without the
requested id the single-row fetch .one() raises NoResultFound, which
station_id does not catch, so the client sees an unclassified server error;
the 404 "No data." branch of the function is dead code (never produced),
although it documents the intended outcome. -/
theorem c7_missing_station_raises :
    station_id emptyDB 1 = .exception ∧ station_id emptyDB 1 ≠ .noData := by
  refine ⟨by decide, by decide⟩

/-! ## C8 -/

/-- Unrolling the travel-cost accumulation loop into a filterMap. -/
theorem travel_cost_foldl_eq (distance mpg : ℚ) (l : List (String × Val))
    (acc : List (String × ℚ)) :
    l.foldl
      (fun acc kv =>
        match kv.2 with
        | .num p => acc ++ [(kv.1, travelCostOf distance mpg p)]
        | .str _ => acc) acc
    = acc ++ l.filterMap
        (fun kv =>
          match kv.2 with
          | .num p => some (kv.1, travelCostOf distance mpg p)
          | .str _ => none) := by
  induction l generalizing acc with
  | nil => simp
  | cons kv tl ih =>
      obtain ⟨k, v⟩ := kv
      cases v with
      | num p => simp [List.filterMap_cons, ih]
      | str s => simp [List.filterMap_cons, ih]

/-- C8: for every price map, distance and mpg, the travel-cost estimate maps
each fuel type carrying a numeric price p to
round((p * distance * 4.546) / (mpg * 1.60934 * 100), 2) and drops entries
whose price is the non-numeric placeholder; on price 1.50, distance 10 and the
default mpg of 30 the estimate is 0.01, and the placeholder entry is dropped
rather than zeroed. -/
theorem c8_travel_cost_formula :
    (∀ (prices : List (String × Val)) (distance mpg : ℚ),
       calculate_travel_cost prices distance mpg =
         prices.filterMap
           (fun kv =>
             match kv.2 with
             | .num p =>
                 some (kv.1,
                   round2 ((p * distance * (4546/1000)) / (mpg * (160934/100000) * 100)))
             | .str _ => none)) ∧
    calculate_travel_cost [("e5", Val.num (3/2)), ("b7", Val.str noDataString)] 10 =
      [("e5", 1/100)] := by
  constructor
  · intro prices distance mpg
    simpa [calculate_travel_cost, travelCostOf] using
      travel_cost_foldl_eq distance mpg prices []
  · simp [calculate_travel_cost, travelCostOf, round2]
    norm_num [round_eq]

/-! ## C10 -/

/-- C10: a station id with no snapshot rows yields the empty dict from
get_price — no fuel-type keys and no updated key — and the nearest-station
entry built for such a station therefore carries an empty prices map and an
empty travel-cost map. -/
theorem c10_no_rows_empty_maps (db : DB) (id : Nat)
    (h : db.prices.filter (fun p => p.siteid == some id) = []) :
    get_price db id = [] ∧
    ∀ (hav : Hav) (lat lon : ℚ) (r : StationRow), r.id = id →
      (mkEntry hav db lat lon r).prices = [] ∧
      (mkEntry hav db lat lon r).travel_cost_estimate = [] := by
  have hrows : rowsFor db id = [] := h
  have hgp : get_price db id = [] := by
    simp [get_price, hrows, latestRow]
  refine ⟨hgp, ?_⟩
  intro hav lat lon r hrid
  subst hrid
  refine ⟨by simpa [mkEntry] using hgp, ?_⟩
  simp [mkEntry, hgp, calculate_travel_cost]

/-- Witness for C10 on a one-station store with no snapshots. -/
theorem c10_no_rows_empty_maps_witness :
    c10db.prices.filter (fun p => p.siteid == some 7) = [] ∧
    (get_price c10db 7 = [] ∧
     ∀ (hav : Hav) (lat lon : ℚ) (r : StationRow), r.id = 7 →
       (mkEntry hav c10db lat lon r).prices = [] ∧
       (mkEntry hav c10db lat lon r).travel_cost_estimate = []) :=
  ⟨by decide, c10_no_rows_empty_maps c10db 7 (by decide)⟩

/-! ## C6 -/

/-- Folding the latest-row accumulator from an already-found row never loses
it: the result stays a some. -/
theorem latestRow_step_some (l : List PriceRow) (a : PriceRow) :
    ∃ b, l.foldl
      (fun acc r =>
        match acc with
        | none => some r
        | some x => if x.timestamp < r.timestamp then some r else acc) (some a) = some b := by
  induction l generalizing a with
  | nil => exact ⟨a, rfl⟩
  | cons r tl ih =>
      simp only [List.foldl_cons]
      by_cases h : a.timestamp < r.timestamp
      · simpa [h] using ih r
      · simpa [h] using ih a

/-- A nonempty row list has a latest row. -/
theorem latestRow_nonempty (l : List PriceRow) (h : l ≠ []) :
    ∃ b, latestRow l = some b := by
  cases l with
  | nil => exact absurd rfl h
  | cons r tl => simpa [latestRow] using latestRow_step_some tl r

/-- Every member of positives is positive. -/
theorem positives_pos {l : List ℚ} {x : ℚ} (hx : x ∈ positives l) : 0 < x := by
  simp only [positives, List.mem_filter, decide_eq_true_eq] at hx
  exact hx.2

/-- The mean of a nonempty list of positive values is positive. -/
theorem mean_positives_pos {l : List ℚ} (h : positives l ≠ []) :
    0 < mean (positives l) := by
  have hsum : 0 < (positives l).sum :=
    List.sum_pos _ (fun x hx => positives_pos hx) h
  have hlen : 0 < ((positives l).length : ℚ) := by
    exact_mod_cast List.length_pos.mpr h
  exact div_pos hsum hlen

/-- With no qualifying value the history average is computed over the single
sentinel and renders as the no-data marker. -/
theorem histAvg_sentinel (vals : List ℚ) (h : positives vals = []) :
    format_price (mean (orSentinel (positives vals))) = .str noDataString := by
  rw [h]
  norm_num [orSentinel, mean, format_price]

/-- With qualifying values the history average is the rounded mean of exactly
the positive values. -/
theorem histAvg_mean (vals : List ℚ) (h : positives vals ≠ []) :
    format_price (mean (orSentinel (positives vals))) =
      .num (round2 (mean (positives vals))) := by
  have hpos := mean_positives_pos h
  have hne : mean (positives vals) ≠ -1 := by linarith
  simp [orSentinel, List.isEmpty_iff, h, format_price, hne]

/-- A column with a positive row has a non-NULL rounded average. -/
theorem avgPos_of_nonempty {l : List ℚ} (h : positives l ≠ []) :
    avgPos l = some (round2 (mean (positives l))) := by
  cases hp : positives l with
  | nil => exact absurd hp h
  | cons x xs =>
      simp only [avgPos, hp]

/-- C6: for a station with at least one snapshot, /price/id reports per fuel
type the (rounded) arithmetic mean of exactly its positive historical values,
and the no-data marker instead when no value qualifies (the mean then being
taken over the single sentinel -1); and whenever every fuel-type column has a
positive row somewhere (and the rounded e5 average is not the falsy zero),
/prices/average reports per fuel type the mean over all snapshot rows with a
positive value for it, rounded to 2 decimals. -/
theorem c6_average_excludes_nonpositive (db : DB) (id : Nat)
    (hne : rowsFor db id ≠ []) :
    (∃ out, price_id db id = some out ∧
      ((positives ((rowsFor db id).map (fun r => r.price_e5)) = [] →
          out.price_e5_average = .str noDataString) ∧
       (positives ((rowsFor db id).map (fun r => r.price_e5)) ≠ [] →
          out.price_e5_average =
            .num (round2 (mean (positives ((rowsFor db id).map (fun r => r.price_e5))))))) ∧
      ((positives ((rowsFor db id).map (fun r => r.price_e10)) = [] →
          out.price_e10_average = .str noDataString) ∧
       (positives ((rowsFor db id).map (fun r => r.price_e10)) ≠ [] →
          out.price_e10_average =
            .num (round2 (mean (positives ((rowsFor db id).map (fun r => r.price_e10))))))) ∧
      ((positives ((rowsFor db id).map (fun r => r.price_b7)) = [] →
          out.price_b7_average = .str noDataString) ∧
       (positives ((rowsFor db id).map (fun r => r.price_b7)) ≠ [] →
          out.price_b7_average =
            .num (round2 (mean (positives ((rowsFor db id).map (fun r => r.price_b7))))))) ∧
      ((positives ((rowsFor db id).map (fun r => r.price_sdv)) = [] →
          out.price_sdv_average = .str noDataString) ∧
       (positives ((rowsFor db id).map (fun r => r.price_sdv)) ≠ [] →
          out.price_sdv_average =
            .num (round2 (mean (positives ((rowsFor db id).map (fun r => r.price_sdv)))))))) ∧
    ((positives (db.prices.map (fun r => r.price_e5)) ≠ [] ∧
      positives (db.prices.map (fun r => r.price_e10)) ≠ [] ∧
      positives (db.prices.map (fun r => r.price_b7)) ≠ [] ∧
      positives (db.prices.map (fun r => r.price_sdv)) ≠ [] ∧
      round2 (mean (positives (db.prices.map (fun r => r.price_e5)))) ≠ 0) →
      prices_average db =
        .ok ⟨round2 (mean (positives (db.prices.map (fun r => r.price_e5)))),
             round2 (mean (positives (db.prices.map (fun r => r.price_e10)))),
             round2 (mean (positives (db.prices.map (fun r => r.price_b7)))),
             round2 (mean (positives (db.prices.map (fun r => r.price_sdv))))⟩) := by
  obtain ⟨r, hr⟩ := latestRow_nonempty _ hne
  have hpid : price_id db id = some
      { id := r.id, siteid := r.siteid,
        price_e5 := format_price r.price_e5,
        price_e10 := format_price r.price_e10,
        price_b7 := format_price r.price_b7,
        price_sdv := format_price r.price_sdv,
        price_e5_average :=
          format_price (mean (orSentinel (positives ((rowsFor db id).map (fun x => x.price_e5))))),
        price_e10_average :=
          format_price (mean (orSentinel (positives ((rowsFor db id).map (fun x => x.price_e10))))),
        price_b7_average :=
          format_price (mean (orSentinel (positives ((rowsFor db id).map (fun x => x.price_b7))))),
        price_sdv_average :=
          format_price (mean (orSentinel (positives ((rowsFor db id).map (fun x => x.price_sdv))))),
        timestamp := strfTime r.timestamp } := by
    simp only [price_id, hr]
  constructor
  · refine ⟨_, hpid, ?_, ?_, ?_, ?_⟩
    · exact ⟨fun h => histAvg_sentinel _ h, fun h => histAvg_mean _ h⟩
    · exact ⟨fun h => histAvg_sentinel _ h, fun h => histAvg_mean _ h⟩
    · exact ⟨fun h => histAvg_sentinel _ h, fun h => histAvg_mean _ h⟩
    · exact ⟨fun h => histAvg_sentinel _ h, fun h => histAvg_mean _ h⟩
  · rintro ⟨h5, h10, h7, hs, hnz⟩
    simp only [prices_average, avgPos_of_nonempty h5, avgPos_of_nonempty h10,
      avgPos_of_nonempty h7, avgPos_of_nonempty hs]
    rw [if_pos (Or.inl hnz)]

/-- The station store of the C6 witness: one station whose e5 history is
[1.50, -1, 0, 1.60] while the other fuel types never have data. -/
def c6db : DB :=
  ⟨[⟨1, "s1", "a", "b", "p", 0, 0⟩],
   [⟨1, some 1, 3/2, -1, -1, -1, 1⟩, ⟨2, some 1, -1, -1, -1, -1, 2⟩,
    ⟨3, some 1, 0, -1, -1, -1, 3⟩, ⟨4, some 1, 8/5, -1, -1, -1, 4⟩], 2, 5⟩

/-- Witness for C6: on the e5 history [1.50, -1, 0, 1.60] the reported e5
average is 1.55 (the -1 and 0 entries are excluded), while the e10 average,
with no qualifying value, is the no-data marker. -/
theorem c6_average_excludes_nonpositive_witness :
    rowsFor c6db 1 ≠ [] ∧
    ∃ out, price_id c6db 1 = some out ∧
      out.price_e5_average = .num (31/20) ∧
      out.price_e10_average = .str noDataString := by
  obtain ⟨⟨out, hout, ⟨_, hn5⟩, ⟨hs10, _⟩, _, _⟩, _⟩ :=
    c6_average_excludes_nonpositive c6db 1 (by decide)
  have hlist : positives ((rowsFor c6db 1).map (fun r => r.price_e5)) = [3/2, 8/5] := by
    norm_num [rowsFor, c6db, positives, List.filter]
  have hlist10 : positives ((rowsFor c6db 1).map (fun r => r.price_e10)) = [] := by
    norm_num [rowsFor, c6db, positives, List.filter]
  refine ⟨by decide, out, hout, ?_, hs10 hlist10⟩
  rw [hn5 (by rw [hlist]; exact List.cons_ne_nil _ _), hlist]
  norm_num [mean, round2, round_eq]

/-! ## Ingestion invariants: append-only growth, natural-key uniqueness -/

/-- At most one Station row per natural key (the unique constraint on
siteid). -/
def Uniq (db : DB) : Prop :=
  db.stations.Pairwise (fun a b => a.siteid ≠ b.siteid)

/-- Number of Station rows holding a natural key. -/
def countSite (db : DB) (s : String) : Nat :=
  (db.stations.filter (fun r => r.siteid == s)).length

/-- Some Station row holds the natural key. -/
def hasSite (db : DB) (s : String) : Prop :=
  ∃ r ∈ db.stations, r.siteid = s

/-- The later store extends the earlier one by appended rows only. -/
def DBExtends (d db : DB) : Prop :=
  (∃ t, d.stations = db.stations ++ t) ∧ (∃ u, d.prices = db.prices ++ u)

theorem dbExtends_refl (db : DB) : DBExtends db db :=
  ⟨⟨[], by simp⟩, ⟨[], by simp⟩⟩

theorem dbExtends_trans {a b c : DB} (h1 : DBExtends a b) (h2 : DBExtends b c) :
    DBExtends a c := by
  obtain ⟨⟨t1, ht1⟩, ⟨u1, hu1⟩⟩ := h1
  obtain ⟨⟨t2, ht2⟩, ⟨u2, hu2⟩⟩ := h2
  exact ⟨⟨t2 ++ t1, by rw [ht1, ht2, List.append_assoc]⟩,
         ⟨u2 ++ u1, by rw [hu1, hu2, List.append_assoc]⟩⟩

theorem insertPrice_stations (db : DB) (sid : Option Nat) (ts : Nat)
    (pm : List (String × ℚ)) : (insertPrice db sid ts pm).stations = db.stations := by
  unfold insertPrice
  split
  · rfl
  · split
    · rfl
    · rfl

theorem insertPrice_prices (db : DB) (sid : Option Nat) (ts : Nat)
    (pm : List (String × ℚ)) :
    ∃ u, (insertPrice db sid ts pm).prices = db.prices ++ u := by
  unfold insertPrice
  split
  · exact ⟨[], by simp⟩
  · split
    · exact ⟨[], by simp⟩
    · exact ⟨[⟨db.nextPriceId, sid, -1, -1, -1, -1, ts⟩], rfl⟩

theorem resolveStation_fst_extends (db : DB) (site : SiteRecord) :
    DBExtends (resolveStation db site).1 db := by
  unfold resolveStation
  split
  · split
    · exact dbExtends_refl db
    · exact dbExtends_refl db
  · exact ⟨⟨_, rfl⟩, ⟨[], by simp⟩⟩

theorem ingestSite_extends (ts : Nat) (db : DB) (site : SiteRecord) :
    DBExtends (ingestSite ts db site) db := by
  have h1 := resolveStation_fst_extends db site
  obtain ⟨hs, hp⟩ := h1
  refine dbExtends_trans ?_ ⟨hs, hp⟩
  exact ⟨⟨[], by simp [ingestSite, insertPrice_stations]⟩,
         by simpa [ingestSite] using insertPrice_prices _ _ _ _⟩

theorem foldl_ingest_extends (ts : Nat) (sites : List SiteRecord) (db : DB) :
    DBExtends (sites.foldl (ingestSite ts) db) db := by
  induction sites generalizing db with
  | nil => exact dbExtends_refl db
  | cons a tl ih =>
      exact dbExtends_trans (ih (ingestSite ts db a)) (ingestSite_extends ts db a)

theorem processFeed_ok_extends {db d : DB} {f : Feed}
    (h : processFeed db f = .ok d) : DBExtends d db := by
  unfold processFeed at h
  split at h
  · split at h
    · cases h
      exact foldl_ingest_extends _ _ _
    · cases h
  · cases h
    exact dbExtends_refl db

theorem build_ok_extends {feeds : List Feed} {db d : DB}
    (h : build_database db feeds = .ok d) : DBExtends d db := by
  induction feeds generalizing db with
  | nil => cases h; exact dbExtends_refl _
  | cons f rest ih =>
      rw [build_database, List.foldlM_cons] at h
      cases hpf : processFeed db f with
      | error e => rw [hpf] at h; cases h
      | ok mid =>
          rw [hpf] at h
          exact dbExtends_trans (ih h) (processFeed_ok_extends hpf)

theorem runDB_extends (db : DB) (feeds : List Feed) :
    DBExtends (runDB db feeds) db := by
  unfold runDB
  cases h : build_database db feeds with
  | ok d => exact build_ok_extends h
  | error e => exact dbExtends_refl db

theorem buildMany_extends (db : DB) (runs : List (List Feed)) :
    DBExtends (buildMany db runs) db := by
  induction runs generalizing db with
  | nil => exact dbExtends_refl db
  | cons run rest ih =>
      exact dbExtends_trans (ih (runDB db run)) (runDB_extends db run)

theorem uniq_resolveStation {db : DB} (h : Uniq db) (site : SiteRecord) :
    Uniq (resolveStation db site).1 := by
  unfold resolveStation
  split
  · split
    · exact h
    · exact h
  · rename_i hany
    have hall : ∀ a ∈ db.stations, a.siteid ≠ site.site_id := by
      have := List.any_eq_false.mp (Bool.of_not_eq_true hany)
      intro a ha
      simpa using this a ha
    refine List.pairwise_append.mpr ⟨h, List.pairwise_singleton _ _, ?_⟩
    intro a ha b hb
    rcases List.mem_singleton.mp hb with rfl
    exact hall a ha

theorem uniq_ingestSite {db : DB} (h : Uniq db) (ts : Nat) (site : SiteRecord) :
    Uniq (ingestSite ts db site) := by
  unfold Uniq ingestSite
  rw [insertPrice_stations]
  exact uniq_resolveStation h site

theorem uniq_foldl_ingest {db : DB} (h : Uniq db) (ts : Nat) (sites : List SiteRecord) :
    Uniq (sites.foldl (ingestSite ts) db) := by
  induction sites generalizing db with
  | nil => exact h
  | cons a tl ih => exact ih (uniq_ingestSite h ts a)

theorem uniq_processFeed {db d : DB} {f : Feed} (h : Uniq db)
    (hpf : processFeed db f = .ok d) : Uniq d := by
  unfold processFeed at hpf
  split at hpf
  · split at hpf
    · cases hpf; exact uniq_foldl_ingest h _ _
    · cases hpf
  · cases hpf; exact h

theorem uniq_build {feeds : List Feed} {db d : DB} (h : Uniq db)
    (hb : build_database db feeds = .ok d) : Uniq d := by
  induction feeds generalizing db with
  | nil => cases hb; exact h
  | cons f rest ih =>
      rw [build_database, List.foldlM_cons] at hb
      cases hpf : processFeed db f with
      | error e => rw [hpf] at hb; cases hb
      | ok mid =>
          rw [hpf] at hb
          exact ih (uniq_processFeed h hpf) hb

theorem uniq_runDB {db : DB} (h : Uniq db) (feeds : List Feed) :
    Uniq (runDB db feeds) := by
  unfold runDB
  cases hb : build_database db feeds with
  | ok d => exact uniq_build h hb
  | error e => exact h

theorem uniq_buildMany {db : DB} (h : Uniq db) (runs : List (List Feed)) :
    Uniq (buildMany db runs) := by
  induction runs generalizing db with
  | nil => exact h
  | cons run rest ih => exact ih (uniq_runDB h run)

/-- Under the unique constraint, looking a key up finds exactly the row
holding it. -/
theorem find?_of_uniq {l : List StationRow} {r : StationRow}
    (hU : l.Pairwise (fun a b => a.siteid ≠ b.siteid)) (hr : r ∈ l) :
    l.find? (fun x => x.siteid == r.siteid) = some r := by
  induction l with
  | nil => cases hr
  | cons a tl ih =>
      obtain ⟨ha, htl⟩ := List.pairwise_cons.mp hU
      rcases List.mem_cons.mp hr with rfl | hmem
      · exact List.find?_cons_of_pos _ (by simp)
      · have hne : a.siteid ≠ r.siteid := ha r hmem
        rw [List.find?_cons_of_neg _ (by simpa using hne)]
        exact ih htl hmem

/-- The two-step resolve on an already-present natural key changes nothing
and returns the surrogate id of the single existing row. -/
theorem resolveStation_existing {db : DB} {site : SiteRecord} {r : StationRow}
    (hU : Uniq db) (hr : r ∈ db.stations) (hs : r.siteid = site.site_id) :
    resolveStation db site = (db, some r.id) := by
  have hany : db.stations.any (fun x => x.siteid == site.site_id) = true :=
    List.any_eq_true.mpr ⟨r, hr, by simp [hs]⟩
  have hfind : db.stations.find? (fun x => x.siteid == site.site_id) = some r := by
    rw [show site.site_id = r.siteid from hs.symm]
    exact find?_of_uniq hU hr
  unfold resolveStation
  rw [if_pos hany, hfind]

/-- The two-step resolve always leaves behind (or finds) a row holding the
record's natural key and returns that row's surrogate id. -/
theorem resolveStation_post (db : DB) (site : SiteRecord) :
    ∃ r ∈ (resolveStation db site).1.stations,
      r.siteid = site.site_id ∧ (resolveStation db site).2 = some r.id := by
  unfold resolveStation
  split
  · rename_i hany
    have hsome : (db.stations.find? (fun x => x.siteid == site.site_id)).isSome = true := by
      rw [List.find?_isSome]
      exact List.any_eq_true.mp hany
    cases hfind : db.stations.find? (fun x => x.siteid == site.site_id) with
    | none => rw [hfind] at hsome; cases hsome
    | some r =>
        refine ⟨r, List.mem_of_find?_eq_some hfind, ?_, ?_⟩
        · simpa using List.find?_some hfind
        · simp [hfind]
  · exact ⟨⟨db.nextStationId, site.site_id, site.address, site.brand, site.postcode,
            site.latitude, site.longitude⟩, by simp, rfl, rfl⟩

theorem hasSite_mono {d db : DB} {s : String} (hext : DBExtends d db) :
    hasSite db s → hasSite d s := by
  rintro ⟨r, hr, hs⟩
  obtain ⟨⟨t, ht⟩, _⟩ := hext
  exact ⟨r, by rw [ht]; exact List.mem_append_left _ hr, hs⟩

theorem ingestSite_hasSite (ts : Nat) (db : DB) (site : SiteRecord) :
    hasSite (ingestSite ts db site) site.site_id := by
  obtain ⟨r, hmem, hs, _⟩ := resolveStation_post db site
  exact ⟨r, by rw [ingestSite, insertPrice_stations]; exact hmem, hs⟩

theorem foldl_ingest_hasSite (ts : Nat) {sites : List SiteRecord} (db : DB)
    {site : SiteRecord} (h : site ∈ sites) :
    hasSite (sites.foldl (ingestSite ts) db) site.site_id := by
  induction sites generalizing db with
  | nil => cases h
  | cons a tl ih =>
      rcases List.mem_cons.mp h with rfl | hmem
      · exact hasSite_mono (foldl_ingest_extends ts tl (ingestSite ts db site))
          (ingestSite_hasSite ts db site)
      · exact ih _ hmem

/-- A run whose 200-feeds all parse. -/
def runOk (run : List Feed) : Prop :=
  ∀ f ∈ run, f.status = 200 → f.parses = true

/-- A run whose 200-feeds all parse reaches its commit, only appends rows,
preserves natural-key uniqueness, and afterwards holds every natural key of
every record of every 200-feed of the run. -/
theorem build_ok_of_runOk (feeds : List Feed) (db : DB) (h : runOk feeds) :
    ∃ d, build_database db feeds = .ok d ∧ DBExtends d db ∧ (Uniq db → Uniq d) ∧
      ∀ f ∈ feeds, f.status = 200 → ∀ site ∈ f.stations, hasSite d site.site_id := by
  induction feeds generalizing db with
  | nil =>
      exact ⟨db, rfl, dbExtends_refl db, fun hu => hu, by simp⟩
  | cons f rest ih =>
      have hrest : runOk rest := fun g hg => h g (List.mem_cons_of_mem f hg)
      by_cases h200 : f.status = 200
      · have hp : f.parses = true := h f (List.mem_cons_self f rest) h200
        have hpf : processFeed db f =
            .ok (f.stations.foldl (ingestSite f.last_updated) db) := by
          simp [processFeed, h200, hp]
        obtain ⟨d, hd, hext, hun, hsites⟩ :=
          ih (f.stations.foldl (ingestSite f.last_updated) db) hrest
        refine ⟨d, ?_, dbExtends_trans hext (foldl_ingest_extends _ _ _),
                fun hu => hun (uniq_foldl_ingest hu _ _), ?_⟩
        · rw [build_database, List.foldlM_cons, hpf]
          exact hd
        · intro g hg hg200 site hsite
          rcases List.mem_cons.mp hg with rfl | hmem
          · exact hasSite_mono hext (foldl_ingest_hasSite _ _ hsite)
          · exact hsites g hmem hg200 site hsite
      · have hpf : processFeed db f = .ok db := by
          have : (f.status == 200) = false := by simpa using h200
          simp [processFeed, this]
        obtain ⟨d, hd, hext, hun, hsites⟩ := ih db hrest
        refine ⟨d, ?_, hext, hun, ?_⟩
        · rw [build_database, List.foldlM_cons, hpf]
          exact hd
        · intro g hg hg200 site hsite
          rcases List.mem_cons.mp hg with rfl | hmem
          · exact absurd hg200 h200
          · exact hsites g hmem hg200 site hsite

/-- Under the unique constraint a held natural key is held by exactly one
row. -/
theorem filter_siteid_length {l : List StationRow} {r : StationRow}
    (hU : l.Pairwise (fun a b => a.siteid ≠ b.siteid)) (hr : r ∈ l) :
    (l.filter (fun x => x.siteid == r.siteid)).length = 1 := by
  induction l with
  | nil => cases hr
  | cons a tl ih =>
      obtain ⟨ha, htl⟩ := List.pairwise_cons.mp hU
      rcases List.mem_cons.mp hr with rfl | hmem
      · rw [List.filter_cons_of_pos (by simp)]
        have hnil : tl.filter (fun x => x.siteid == r.siteid) = [] := by
          rw [List.filter_eq_nil_iff]
          intro b hb
          simpa using (ha b hb).symm
        simp [hnil]
      · have hne : a.siteid ≠ r.siteid := ha r hmem
        rw [List.filter_cons_of_neg (by simpa using hne)]
        exact ih htl hmem

theorem countSite_eq_one {db : DB} {s : String} (hU : Uniq db)
    (hs : hasSite db s) : countSite db s = 1 := by
  obtain ⟨r, hr, rfl⟩ := hs
  exact filter_siteid_length hU hr

theorem buildMany_cons (db : DB) (run : List Feed) (rest : List (List Feed)) :
    buildMany db (run :: rest) = buildMany (runDB db run) rest := rfl

/-! ## C3 -/

/-- The natural key appears in a record of a 200-feed of a run all of whose
200-feeds parse (i.e. a run that reaches its commit). -/
def ingestedKey (runs : List (List Feed)) (s : String) : Prop :=
  ∃ run ∈ runs, runOk run ∧
    ∃ f ∈ run, f.status = 200 ∧ ∃ site ∈ f.stations, site.site_id = s

theorem buildMany_hasSite {runs : List (List Feed)} {s : String} (db : DB)
    (h : ingestedKey runs s) : hasSite (buildMany db runs) s := by
  induction runs generalizing db with
  | nil => obtain ⟨run, hrun, _⟩ := h; cases hrun
  | cons run rest ih =>
      obtain ⟨run0, hrun0, hok, f, hf, h200, site, hsite, hsid⟩ := h
      rw [buildMany_cons]
      rcases List.mem_cons.mp hrun0 with rfl | hmem
      · have h1 : hasSite (runDB db run0) s := by
          obtain ⟨d, hd, _, _, hsites⟩ := build_ok_of_runOk run0 db hok
          unfold runDB
          rw [hd]
          exact hsid ▸ hsites f hf h200 site hsite
        exact hasSite_mono (buildMany_extends (runDB db run0) rest) h1
      · exact ih _ ⟨run0, hmem, hok, f, hf, h200, site, hsite, hsid⟩

/-- C3: starting from any store satisfying the natural-key constraint, after
any sequence of ingestion runs the constraint still holds; every natural key
that appeared in an ingested station record is held by exactly one Station
row; and the try-insert-then-fallback-lookup resolution of a key already
present leaves the store untouched and returns the surrogate id of its single
row — the same id before and after the runs. -/
theorem c3_natural_key_stable (db : DB) (runs : List (List Feed)) (hU : Uniq db) :
    Uniq (buildMany db runs) ∧
    (∀ s, ingestedKey runs s → countSite (buildMany db runs) s = 1) ∧
    (∀ r ∈ db.stations, ∀ site : SiteRecord, site.site_id = r.siteid →
        resolveStation db site = (db, some r.id) ∧
        resolveStation (buildMany db runs) site = (buildMany db runs, some r.id)) := by
  have hUm : Uniq (buildMany db runs) := uniq_buildMany hU runs
  refine ⟨hUm, ?_, ?_⟩
  · intro s hs
    exact countSite_eq_one hUm (buildMany_hasSite db hs)
  · intro r hr site hsite
    have hmem : r ∈ (buildMany db runs).stations := by
      obtain ⟨⟨t, ht⟩, _⟩ := buildMany_extends db runs
      rw [ht]
      exact List.mem_append_left _ hr
    exact ⟨resolveStation_existing hU hr hsite.symm,
           resolveStation_existing hUm hmem hsite.symm⟩

/-- A run re-ingesting the key k1. -/
def c3feed : Feed := ⟨200, true, 40, [⟨"k1", "a", "b", "p", 0, 0, []⟩]⟩

/-- Witness for C3 on one concrete run. -/
theorem c3_natural_key_stable_witness :
    Uniq emptyDB ∧
    (Uniq (buildMany emptyDB [[c3feed]]) ∧
     (∀ s, ingestedKey [[c3feed]] s → countSite (buildMany emptyDB [[c3feed]]) s = 1) ∧
     (∀ r ∈ emptyDB.stations, ∀ site : SiteRecord, site.site_id = r.siteid →
        resolveStation emptyDB site = (emptyDB, some r.id) ∧
        resolveStation (buildMany emptyDB [[c3feed]]) site =
          (buildMany emptyDB [[c3feed]], some r.id))) :=
  ⟨List.Pairwise.nil, c3_natural_key_stable emptyDB [[c3feed]] List.Pairwise.nil⟩

/-! ## C9 -/

/-- C9: a Station row present before an ingestion run is still present,
unchanged in every field, after any sequence of further runs, and it is
exactly the row the fallback lookup finds for its natural key: re-ingestion
never updates name, brand, postcode, coordinates or id. -/
theorem c9_station_identity_immutable (db : DB) (r : StationRow)
    (runs : List (List Feed)) (hU : Uniq db) (hr : r ∈ db.stations) :
    r ∈ (buildMany db runs).stations ∧
    (buildMany db runs).stations.find? (fun x => x.siteid == r.siteid) = some r := by
  have hmem : r ∈ (buildMany db runs).stations := by
    obtain ⟨⟨t, ht⟩, _⟩ := buildMany_extends db runs
    rw [ht]
    exact List.mem_append_left _ hr
  exact ⟨hmem, find?_of_uniq (uniq_buildMany hU runs) hmem⟩

/-- The pre-existing station row of the C9 witness. -/
def c9row : StationRow := ⟨1, "s9", "orig-name", "orig-brand", "orig-pc", 1, 2⟩

/-- A store already holding c9row. -/
def c9db : DB := ⟨[c9row], [], 2, 1⟩

/-- A run re-ingesting the same natural key with different descriptive
fields. -/
def c9run : List Feed :=
  [⟨200, true, 50, [⟨"s9", "new-name", "new-brand", "new-pc", 3, 4, []⟩]⟩]

/-- Witness for C9: after re-ingesting key s9 with new descriptive fields the
stored row is still the original one. -/
theorem c9_station_identity_immutable_witness :
    Uniq c9db ∧ c9row ∈ c9db.stations ∧
    (c9row ∈ (buildMany c9db [c9run]).stations ∧
     (buildMany c9db [c9run]).stations.find? (fun x => x.siteid == c9row.siteid) =
       some c9row) :=
  ⟨by unfold Uniq; decide, by decide,
   c9_station_identity_immutable c9db c9row [c9run] (by unfold Uniq; decide) (by decide)⟩

/-! ## C2 -/

/-- The record's effects are present in the store: some station row holds its
natural key and — when the record's price map has no fuel key, the only case
in which the price insert is reached with values — a snapshot row links that
station row to the feed's last_updated instant. -/
def SitePost (d : DB) (ts : Nat) (site : SiteRecord) : Prop :=
  ∃ r ∈ d.stations, r.siteid = site.site_id ∧
    (hasFuelKey site.prices = false →
      ∃ p ∈ d.prices, p.siteid = some r.id ∧ p.timestamp = ts)

theorem sitePost_mono {d d2 : DB} {ts : Nat} {site : SiteRecord}
    (hext : DBExtends d2 d) : SitePost d ts site → SitePost d2 ts site := by
  rintro ⟨r, hr, hs, hp⟩
  obtain ⟨⟨t, ht⟩, ⟨u, hu⟩⟩ := hext
  refine ⟨r, by rw [ht]; exact List.mem_append_left _ hr, hs, fun hk => ?_⟩
  obtain ⟨p, hpmem, hps, hpts⟩ := hp hk
  exact ⟨p, by rw [hu]; exact List.mem_append_left _ hpmem, hps, hpts⟩

theorem insertPrice_link (db : DB) (rid : Nat) (ts : Nat) (pm : List (String × ℚ))
    (hk : hasFuelKey pm = false) :
    ∃ p ∈ (insertPrice db (some rid) ts pm).prices,
      p.siteid = some rid ∧ p.timestamp = ts := by
  by_cases hany :
      db.prices.any (fun p => p.siteid == some rid && p.timestamp == ts) = true
  · obtain ⟨p, hp, hcond⟩ := List.any_eq_true.mp hany
    obtain ⟨hps, hpts⟩ := Bool.and_eq_true_iff.mp hcond
    refine ⟨p, ?_, by simpa using hps, by simpa using hpts⟩
    simp [insertPrice, hk, hany]
    exact hp
  · refine ⟨⟨db.nextPriceId, some rid, -1, -1, -1, -1, ts⟩, ?_, rfl, rfl⟩
    simp [insertPrice, hk, Bool.eq_false_iff.mpr hany]

theorem ingestSite_sitePost (ts : Nat) (db : DB) (site : SiteRecord) :
    SitePost (ingestSite ts db site) ts site := by
  obtain ⟨r, hmem, hs, hid⟩ := resolveStation_post db site
  refine ⟨r, ?_, hs, fun hk => ?_⟩
  · simp only [ingestSite, insertPrice_stations]
    exact hmem
  · simp only [ingestSite, hid]
    exact insertPrice_link _ r.id ts site.prices hk

theorem foldl_ingest_sitePost (ts : Nat) {sites : List SiteRecord} (db : DB)
    {site : SiteRecord} (h : site ∈ sites) :
    SitePost (sites.foldl (ingestSite ts) db) ts site := by
  induction sites generalizing db with
  | nil => cases h
  | cons a tl ih =>
      rcases List.mem_cons.mp h with rfl | hmem
      · exact sitePost_mono (foldl_ingest_extends ts tl _) (ingestSite_sitePost ts db site)
      · exact ih _ hmem

/-- The feed has already been fully applied to the store. -/
def Applied (d : DB) (f : Feed) : Prop :=
  f.status = 200 →
    f.parses = true ∧ ∀ site ∈ f.stations, SitePost d f.last_updated site

theorem build_applied {feeds : List Feed} {db d : DB}
    (hb : build_database db feeds = .ok d) : ∀ f ∈ feeds, Applied d f := by
  induction feeds generalizing db with
  | nil => intro f hf; cases hf
  | cons g rest ih =>
      rw [build_database, List.foldlM_cons] at hb
      cases hpf : processFeed db g with
      | error e => rw [hpf] at hb; cases hb
      | ok mid =>
          rw [hpf] at hb
          intro f hf
          rcases List.mem_cons.mp hf with rfl | hmem
          · intro h200
            unfold processFeed at hpf
            rw [if_pos (by simpa using h200)] at hpf
            by_cases hp : f.parses = true
            · rw [if_pos hp] at hpf
              cases hpf
              exact ⟨hp, fun site hsm =>
                sitePost_mono (build_ok_extends hb) (foldl_ingest_sitePost _ _ hsm)⟩
            · rw [if_neg hp] at hpf
              cases hpf
          · exact ih hb f hmem

theorem ingestSite_noop {db : DB} {ts : Nat} {site : SiteRecord} (hU : Uniq db)
    (hpost : SitePost db ts site) : ingestSite ts db site = db := by
  obtain ⟨r, hr, hs, hlink⟩ := hpost
  have hres : resolveStation db site = (db, some r.id) :=
    resolveStation_existing hU hr hs
  simp only [ingestSite, hres]
  cases hk : hasFuelKey site.prices with
  | true => simp [insertPrice, hk]
  | false =>
      obtain ⟨p, hp, hps, hpts⟩ := hlink hk
      have hany : db.prices.any (fun q => q.siteid == some r.id && q.timestamp == ts) = true :=
        List.any_eq_true.mpr ⟨p, hp, by simp [hps, hpts]⟩
      simp [insertPrice, hk, hany]

theorem foldl_ingest_noop {db : DB} {ts : Nat} {sites : List SiteRecord}
    (hU : Uniq db) (h : ∀ site ∈ sites, SitePost db ts site) :
    sites.foldl (ingestSite ts) db = db := by
  induction sites with
  | nil => rfl
  | cons a tl ih =>
      rw [List.foldl_cons, ingestSite_noop hU (h a (List.mem_cons_self a tl))]
      exact ih (fun site hsm => h site (List.mem_cons_of_mem a hsm))

theorem processFeed_noop {db : DB} {f : Feed} (hU : Uniq db) (h : Applied db f) :
    processFeed db f = .ok db := by
  unfold processFeed
  by_cases h200 : f.status = 200
  · obtain ⟨hp, hposts⟩ := h h200
    rw [if_pos (by simpa using h200), if_pos hp, foldl_ingest_noop hU hposts]
  · rw [if_neg (by simpa using h200)]

theorem build_noop {feeds : List Feed} {db : DB} (hU : Uniq db)
    (h : ∀ f ∈ feeds, Applied db f) : build_database db feeds = .ok db := by
  induction feeds with
  | nil => rfl
  | cons g rest ih =>
      rw [build_database, List.foldlM_cons,
        processFeed_noop hU (h g (List.mem_cons_self g rest))]
      exact ih (fun f hf => h f (List.mem_cons_of_mem g hf))

/-- C2: for feeds whose 200-responses all parse, ingesting from the empty
store reaches its commit, and running the identical ingestion a second time
also reaches its commit — the uniqueness conflicts being swallowed as no-ops
— leaving the Station and PriceSnapshot row counts exactly as after the first
run (the second run in fact changes nothing at all). -/
theorem c2_double_ingestion_idempotent (feeds : List Feed) (hok : runOk feeds) :
    ∃ db1 db2, build_database emptyDB feeds = .ok db1 ∧
      build_database db1 feeds = .ok db2 ∧
      db2.stations.length = db1.stations.length ∧
      db2.prices.length = db1.prices.length := by
  obtain ⟨db1, h1, _, hun, _⟩ := build_ok_of_runOk feeds emptyDB hok
  have hU1 : Uniq db1 := hun List.Pairwise.nil
  exact ⟨db1, db1, h1, build_noop hU1 (build_applied h1), rfl, rfl⟩

/-- The C2 witness feed: one record with no fuel key and one with a fuel
key. -/
def c2feed : Feed :=
  ⟨200, true, 30,
   [⟨"w1", "a", "b", "p", 0, 0, []⟩, ⟨"w2", "a2", "b2", "p2", 0, 0, [("E10", 7/5)]⟩]⟩

/-- Witness for C2 on one concrete feed set. -/
theorem c2_double_ingestion_idempotent_witness :
    runOk [c2feed] ∧
    ∃ db1 db2, build_database emptyDB [c2feed] = .ok db1 ∧
      build_database db1 [c2feed] = .ok db2 ∧
      db2.stations.length = db1.stations.length ∧
      db2.prices.length = db1.prices.length :=
  ⟨by unfold runOk; decide, c2_double_ingestion_idempotent [c2feed] (by unfold runOk; decide)⟩

/-! ## C5 -/

instance distKeyTotal : IsTotal Entry (fun a b => a.distance_km ≤ b.distance_km) :=
  ⟨fun a b => le_total a.distance_km b.distance_km⟩

instance distKeyTrans : IsTrans Entry (fun a b => a.distance_km ≤ b.distance_km) :=
  ⟨fun _ _ _ h1 h2 => le_trans h1 h2⟩

instance priceKeyTotal (ft : String) :
    IsTotal Entry (fun a b => priceKey ft a ≤ priceKey ft b) :=
  ⟨fun x y => le_total (priceKey ft x) (priceKey ft y)⟩

instance priceKeyTrans (ft : String) :
    IsTrans Entry (fun a b => priceKey ft a ≤ priceKey ft b) :=
  ⟨fun _ _ _ h1 h2 => le_trans h1 h2⟩

/-- C5: refuted as stated — on a non-empty store a valid fuel-type filter can
produce no result list at all: a station within the radius that has no
snapshot gets an empty prices dict, and the filtering comprehension's
subscript on it raises an uncaught KeyError instead of excluding the station.
Here the store is non-empty, the filter is valid, the station is in radius,
yet the endpoint returns no 200 list. -/
theorem c5_counterexample_missing_snapshot_crashes :
    c5db.stations ≠ [] ∧ "e5" ∈ validFueltypes ∧
    inRadius hav0 0 0 5 ⟨1, "s1", "a", "b", "p", 0, 0⟩ = true ∧
    get_price c5db 1 = [] ∧
    stations_nearest hav0 c5db 0 0 5 (some "e5") = .exception ∧
    ∀ l, stations_nearest hav0 c5db 0 0 5 (some "e5") ≠ .ok l := by
  refine ⟨by decide, by decide, by decide, by decide, by decide, ?_⟩
  intro l hl
  rw [show stations_nearest hav0 c5db 0 0 5 (some "e5") = .exception from by decide] at hl
  cases hl

/-- C5 (amended): on a non-empty store, with no fuel-type filter the result
is exactly the in-radius stations sorted non-decreasing by the (2-dp rounded)
distance; with a valid fuel-type filter, provided every in-radius station has
at least one snapshot, stations whose latest price for that fuel type is the
no-data marker are excluded and the rest are sorted non-decreasing by that
fuel type's (rounded) price, not by distance. -/
theorem c5_amended_nearest_filter_sort (hav : Hav) (db : DB) (lat lon : ℚ)
    (distance : ℤ) (hne : db.stations ≠ []) :
    (∃ l, stations_nearest hav db lat lon distance none = .ok l ∧
       l.Perm (nearList hav db lat lon distance) ∧
       l.Pairwise (fun a b => a.distance_km ≤ b.distance_km)) ∧
    (∀ ft ∈ validFueltypes,
       (∀ e ∈ nearList hav db lat lon distance, (lookupVal e.prices ft).isSome = true) →
       ∃ l, stations_nearest hav db lat lon distance (some ft) = .ok l ∧
         l.Perm ((nearList hav db lat lon distance).filter
           (fun e => lookupVal e.prices ft != some (.str noDataString))) ∧
         l.Pairwise (fun a b => priceKey ft a ≤ priceKey ft b) ∧
         ∀ e ∈ l, lookupVal e.prices ft ≠ some (.str noDataString)) := by
  have hne' : db.stations.isEmpty = false := by
    cases h : db.stations with
    | nil => exact absurd rfl (h ▸ hne)
    | cons a t => rfl
  constructor
  · refine ⟨_, ?_, List.perm_insertionSort _ _, List.sorted_insertionSort _ _⟩
    simp [stations_nearest, hne']
  · intro ft hft hall
    have hnone : (nearList hav db lat lon distance).any
        (fun e => (lookupVal e.prices ft).isNone) = false := by
      rw [List.any_eq_false]
      intro e he
      have h1 := hall e he
      cases hx : lookupVal e.prices ft with
      | none => rw [hx] at h1; cases h1
      | some v => simp [hx]
    refine ⟨_, ?_, List.perm_insertionSort _ _, List.sorted_insertionSort _ _, ?_⟩
    · simp [stations_nearest, hne', hft, hnone]
    · intro e hel
      have hmem : e ∈ (nearList hav db lat lon distance).filter
          (fun x => lookupVal x.prices ft != some (.str noDataString)) :=
        (List.mem_insertionSort _).mp hel
      have hprop := (List.mem_filter.mp hmem).2
      simpa using hprop

/-- The C5 witness stations: A at 2 km with e5 1.50, B at 8 km with e5 1.40,
C at 1 km with a snapshot lacking e5. -/
def c5wdb : DB :=
  ⟨[⟨1, "A", "a", "b", "p", 1, 1⟩, ⟨2, "B", "a", "b", "p", 2, 2⟩,
    ⟨3, "C", "a", "b", "p", 3, 3⟩],
   [⟨1, some 1, 3/2, -1, -1, -1, 1⟩, ⟨2, some 2, 7/5, -1, -1, -1, 1⟩,
    ⟨3, some 3, -1, -1, -1, -1, 1⟩], 4, 4⟩

/-- A distance function agreeing with haversine on the witness layout: 2 km
to A, 8 km to B, 1 km to C. -/
def c5hav : Hav := fun a _ =>
  if a = ((1 : ℚ), (1 : ℚ)) then 2 else if a = ((2 : ℚ), (2 : ℚ)) then 8 else 1

/-- Witness for the amended C5 on the concrete three-station layout. -/
theorem c5_amended_nearest_filter_sort_witness :
    c5wdb.stations ≠ [] ∧
    ((∃ l, stations_nearest c5hav c5wdb 0 0 10 none = .ok l ∧
        l.Perm (nearList c5hav c5wdb 0 0 10) ∧
        l.Pairwise (fun a b => a.distance_km ≤ b.distance_km)) ∧
     (∀ ft ∈ validFueltypes,
        (∀ e ∈ nearList c5hav c5wdb 0 0 10, (lookupVal e.prices ft).isSome = true) →
        ∃ l, stations_nearest c5hav c5wdb 0 0 10 (some ft) = .ok l ∧
          l.Perm ((nearList c5hav c5wdb 0 0 10).filter
            (fun e => lookupVal e.prices ft != some (.str noDataString))) ∧
          l.Pairwise (fun a b => priceKey ft a ≤ priceKey ft b) ∧
          ∀ e ∈ l, lookupVal e.prices ft ≠ some (.str noDataString))) :=
  ⟨by decide, c5_amended_nearest_filter_sort c5hav c5wdb 0 0 10 (by decide)⟩

end FuelApi
